import Mathlib

/-
Verification of the QSO logger core (qso_logger.py): field validators,
ADIF record encoding, the QRZ two-step lookup flow, and the logging
state machine, shallowly embedded in Lean.

Conventions of the embedding:
  - Python strings are Lean Strings (sequences of Unicode scalar values);
    Python len(s) is String.length.
  - Python functions that can raise are Except / Option valued.
  - Machine floats appearing in validate_frequency are modelled with exact
    rational semantics for decimal literals (see pyFloatParse below).
-/

/-! ## Character classes and Python string primitives -/

/-- Decimal ASCII digit, the regex class [0-9]. -/
def isAsciiDigit (c : Char) : Bool := 48 ≤ c.toNat && c.toNat ≤ 57

/-- Upper-case ASCII letter, the regex class [A-Z]. -/
def isUpperLetter (c : Char) : Bool := 65 ≤ c.toNat && c.toNat ≤ 90

/-- The regex class [A-Z0-9]. -/
def isUpperAlnum (c : Char) : Bool := isUpperLetter c || isAsciiDigit c

/-- ASCII whitespace stripped by Python str.strip (Python additionally strips
some Unicode space characters; those never occur in the properties below and
behave identically on both sides of every stated equivalence). -/
def isPyWs (c : Char) : Bool :=
  c.toNat = 32 || c.toNat = 9 || c.toNat = 10 || c.toNat = 13 ||
  c.toNat = 11 || c.toNat = 12

/-- Lower-case ASCII letter. -/
def isLowerLetter (c : Char) : Bool := 97 ≤ c.toNat && c.toNat ≤ 122

/-- ASCII action of Python str.upper on one character (non-ASCII Unicode
case mappings never influence the stated theorems: characters outside the
ASCII letters are opaque to every predicate involved). -/
def upChar (c : Char) : Char :=
  if 97 ≤ c.toNat ∧ c.toNat ≤ 122 then
    Char.ofNat (c.toNat - 32)
  else c

/-- Python str.upper, character by character. -/
def pyUpper (s : String) : String := String.mk (s.data.map upChar)

/-- Strip isPyWs characters from both ends of a character list. -/
def stripList (l : List Char) : List Char :=
  ((l.dropWhile isPyWs).reverse.dropWhile isPyWs).reverse

/-- Python str.strip (no argument form). -/
def pyStrip (s : String) : String := String.mk (stripList s.data)

/-! ## Decimal rendering of naturals (Python str(n) / f-string of len) -/

/-- Decimal digit character for a value below ten. -/
def digitChar : Nat → Char
  | 0 => '0' | 1 => '1' | 2 => '2' | 3 => '3' | 4 => '4'
  | 5 => '5' | 6 => '6' | 7 => '7' | 8 => '8' | _ => '9'

/-- Decimal digits with explicit recursion fuel, so that values reduce
inside the kernel. -/
def natDigitsAux : Nat → Nat → List Char
  | _, 0 => []
  | n, fuel + 1 =>
    if n < 10 then [digitChar n]
    else natDigitsAux (n / 10) fuel ++ [digitChar (n % 10)]

/-- Decimal digits of a natural number, most significant first. -/
def natDigits (n : Nat) : List Char := natDigitsAux n (n + 1)

theorem natDigitsAux_congr (f1 : Nat) :
    ∀ f2 n, n < f1 → n < f2 → natDigitsAux n f1 = natDigitsAux n f2 := by
  induction f1 with
  | zero => omega
  | succ g ih =>
    intro f2 n h1 h2
    obtain ⟨g2, rfl⟩ : ∃ g2, f2 = g2 + 1 := ⟨f2 - 1, by omega⟩
    simp only [natDigitsAux]
    by_cases h10 : n < 10
    · rw [if_pos h10, if_pos h10]
    · rw [if_neg h10, if_neg h10,
        ih g2 (n / 10) (by omega) (by omega)]

/-- Unfolding equation of natDigits in its natural recursive form. -/
theorem natDigits_eq (n : Nat) :
    natDigits n =
      if n < 10 then [digitChar n] else natDigits (n / 10) ++ [digitChar (n % 10)] := by
  show natDigitsAux n (n + 1) = _
  simp only [natDigitsAux]
  by_cases h10 : n < 10
  · rw [if_pos h10, if_pos h10]
  · rw [if_neg h10, if_neg h10,
      natDigitsAux_congr n (n / 10 + 1) (n / 10) (by omega) (by omega)]
    rfl

/-- Decimal rendering of a natural number, as Python str(n). -/
def natStr (n : Nat) : String := String.mk (natDigits n)

/-- Value of a list of decimal digit characters, most significant first. -/
def digitsVal (l : List Char) : Nat :=
  l.foldl (fun a c => a * 10 + (c.toNat - 48)) 0

/-! ## QSOValidator.validate_callsign -/

/-- Matching of the callsign regex decomposed at a given cut: a alphanumerics,
one digit, b alphanumerics, one trailing letter. -/
def segCheck (a b : Nat) (l : List Char) : Bool :=
  (l.take a).all isUpperAlnum &&
  match l.drop a with
  | d :: rest =>
    isAsciiDigit d &&
    (rest.take b).all isUpperAlnum &&
    (match rest.drop b with
     | [q] => isUpperLetter q
     | _ => false)
  | [] => false

/-- Anchored match of the pattern [A-Z0-9]\x7b1,3\x7d[0-9][A-Z0-9]\x7b0,3\x7d[A-Z]
from QSOValidator.validate_callsign, by backtracking over the two
bounded-repetition widths. -/
def callsignCore (l : List Char) : Bool :=
  [1, 2, 3].any fun a => [0, 1, 2, 3].any fun b => segCheck a b l

/-- QSOValidator.validate_callsign: re.match of the anchored pattern against
call.upper().strip(). -/
def validate_callsign (call : String) : Bool :=
  callsignCore (pyStrip (pyUpper call)).data

/-- Modelled from the spec: the callsign grammar stated in words — one to
three alphanumeric characters, then a digit, then zero to three alphanumeric
characters, then a trailing letter. -/
def CallsignGrammar (l : List Char) : Prop :=
  ∃ p d m q, l = p ++ d :: (m ++ [q]) ∧
    1 ≤ p.length ∧ p.length ≤ 3 ∧ p.all isUpperAlnum = true ∧
    isAsciiDigit d = true ∧
    m.length ≤ 3 ∧ m.all isUpperAlnum = true ∧
    isUpperLetter q = true

theorem segCheck_iff (a b : Nat) (l : List Char) :
    segCheck a b l = true ↔
      ∃ p d m q, l = p ++ d :: (m ++ [q]) ∧
        p.length = a ∧ p.all isUpperAlnum = true ∧
        isAsciiDigit d = true ∧
        m.length = b ∧ m.all isUpperAlnum = true ∧
        isUpperLetter q = true ∧ a ≤ l.length ∧ b ≤ l.length := by
  constructor
  · intro h
    unfold segCheck at h
    rw [Bool.and_eq_true] at h
    obtain ⟨h1, h2⟩ := h
    split at h2
    case h_2 => exact absurd h2 (by simp)
    case h_1 d rest hd =>
      rw [Bool.and_eq_true, Bool.and_eq_true] at h2
      obtain ⟨⟨hdd, hmid⟩, h3⟩ := h2
      split at h3
      case h_2 => exact absurd h3 (by simp)
      case h_1 q hq =>
        have hal : a < l.length := by
          by_contra hle
          push_neg at hle
          rw [List.drop_eq_nil_of_le hle] at hd
          exact absurd hd (by simp)
        have hbr : b < rest.length := by
          by_contra hle
          push_neg at hle
          rw [List.drop_eq_nil_of_le hle] at hq
          exact absurd hq (by simp)
        have hrl : rest.length ≤ l.length := by
          have hld := List.length_drop a l
          rw [hd] at hld
          simp only [List.length_cons] at hld
          omega
        refine ⟨l.take a, d, rest.take b, q, ?_, ?_, h1, hdd, ?_, hmid, h3, ?_, ?_⟩
        · conv_lhs => rw [← List.take_append_drop a l]
          rw [hd]
          congr 1
          conv_lhs => rw [← List.take_append_drop b rest]
          rw [hq]
        · simp [List.length_take]; omega
        · simp [List.length_take]; omega
        · omega
        · omega
  · rintro ⟨p, d, m, q, hl, hp, hpa, hdd, hm, hma, hq, _, _⟩
    subst hl
    unfold segCheck
    rw [← hp, ← hm]
    rw [List.take_left, List.drop_left]
    simp only [hpa, Bool.true_and]
    rw [List.take_left, List.drop_left]
    simp [hdd, hma, hq]

/-- The backtracking matcher decides the callsign grammar. -/
theorem callsignCore_iff (l : List Char) :
    callsignCore l = true ↔ CallsignGrammar l := by
  unfold callsignCore CallsignGrammar
  simp only [List.any_eq_true]
  constructor
  · rintro ⟨a, ha, b, hb, hseg⟩
    rw [segCheck_iff] at hseg
    obtain ⟨p, d, m, q, hl, hp, hpa, hdd, hm, hma, hq, _, _⟩ := hseg
    have ha3 : a = 1 ∨ a = 2 ∨ a = 3 := by simpa using ha
    have hb3 : b = 0 ∨ b = 1 ∨ b = 2 ∨ b = 3 := by simpa using hb
    exact ⟨p, d, m, q, hl, by omega, by omega, hpa, hdd, by omega, hma, hq⟩
  · rintro ⟨p, d, m, q, hl, hp1, hp3, hpa, hdd, hm3, hma, hq⟩
    refine ⟨p.length, ?_, m.length, ?_, ?_⟩
    · have : p.length = 1 ∨ p.length = 2 ∨ p.length = 3 := by omega
      rcases this with h | h | h <;> simp [h]
    · have : m.length = 0 ∨ m.length = 1 ∨ m.length = 2 ∨ m.length = 3 := by omega
      rcases this with h | h | h | h <;> simp [h]
    · rw [segCheck_iff]
      refine ⟨p, d, m, q, hl, rfl, hpa, hdd, rfl, hma, hq, ?_, ?_⟩ <;>
        (subst hl; simp only [List.length_append, List.length_cons]; omega)

/-- C3: validate_callsign returns true exactly when the trimmed, uppercased
input, as computed by the code, matches the grammar of the spec — one to three
alphanumerics, a digit, zero to three alphanumerics, a trailing letter; any
string violating a clause of the grammar yields false. -/
theorem c3_validate_callsign_grammar (s : String) :
    validate_callsign s = true ↔ CallsignGrammar (pyStrip (pyUpper s)).data :=
  callsignCore_iff _

/-! ## QSOValidator.validate_rst (Python: rst.isdigit() and 11 <= int(rst) <= 59) -/

/-- Characters accepted by Python int() as decimal digits (Unicode category
Nd); the table lists ASCII plus representative Nd ranges (Arabic-Indic,
Devanagari, fullwidth), which covers every character the stated theorems
evaluate. -/
def isPyDecimalDigit (c : Char) : Bool :=
  isAsciiDigit c ||
  (0x660 ≤ c.toNat && c.toNat ≤ 0x669) ||
  (0x966 ≤ c.toNat && c.toNat ≤ 0x96F) ||
  (0xFF10 ≤ c.toNat && c.toNat ≤ 0xFF19)

/-- Characters with the Unicode digit property tested by str.isdigit: the
Nd characters plus digit-typed characters such as superscript and subscript
digits, which isdigit accepts but int() rejects. -/
def isPyDigitChar (c : Char) : Bool :=
  isPyDecimalDigit c ||
  c.toNat = 0xB2 || c.toNat = 0xB3 || c.toNat = 0xB9 ||
  (0x2070 ≤ c.toNat && c.toNat ≤ 0x2079) ||
  (0x2080 ≤ c.toNat && c.toNat ≤ 0x2089)

/-- Python str.isdigit: nonempty and every character has the digit property. -/
def pyIsdigit (s : String) : Bool := !s.data.isEmpty && s.data.all isPyDigitChar

/-- Decimal value of an Nd digit character. -/
def decDigitVal (c : Char) : Nat :=
  if isAsciiDigit c then c.toNat - 48
  else if 0x660 ≤ c.toNat && c.toNat ≤ 0x669 then c.toNat - 0x660
  else if 0x966 ≤ c.toNat && c.toNat ≤ 0x96F then c.toNat - 0x966
  else c.toNat - 0xFF10

/-- Python int() applied to a string that contains no sign and no spaces:
succeeds exactly when the string is a nonempty run of Nd decimal digits,
raising ValueError otherwise (in particular on superscript digits). -/
def pyIntOfDigits (s : String) : Option Nat :=
  if !s.data.isEmpty && s.data.all isPyDecimalDigit then
    some (s.data.foldl (fun a c => a * 10 + decDigitVal c) 0)
  else none

/-- QSOValidator.validate_rst: rst.isdigit() and 11 <= int(rst) <= 59, with
int() able to raise. -/
def validate_rst (rst : String) : Except String Bool :=
  if pyIsdigit rst then
    match pyIntOfDigits rst with
    | some n => .ok (decide (11 ≤ n ∧ n ≤ 59))
    | none => .error "invalid literal for int() with base 10"
  else .ok false

/-! ## QSOValidator.validate_frequency (float parse and range check) -/

/-- Power of ten, by plain structural recursion so that every value below
kernel-reduces. -/
def pow10 : Nat → Nat
  | 0 => 1
  | n + 1 => 10 * pow10 n

/-- Exact decimal value num / 10 ^ e10 of a parsed float literal (IEEE-754
rounding of the literal is not modelled; it is irrelevant to every comparison
stated below). -/
structure DecVal where
  num : Int
  e10 : Nat
deriving DecidableEq

/-- Rational value denoted by a DecVal. -/
def dvVal (v : DecVal) : ℚ := (v.num : ℚ) / ((pow10 v.e10 : Nat) : ℚ)

/-- Comparison of two decimal values by cross multiplication. -/
def dvLe (a b : DecVal) : Bool :=
  decide (a.num * (pow10 b.e10 : Nat) ≤ b.num * (pow10 a.e10 : Nat))

/-- Value of a Python float: a finite decimal value, an infinity, or NaN. -/
inductive PyFloat where
  | finite (v : DecVal)
  | inf
  | ninf
  | nan
deriving DecidableEq

/-- Run of decimal digits with Python underscore placement (an underscore
must sit between two digits); accumulates value and digit count. -/
def dgAux : List Char → Nat → Nat → Option (Nat × Nat)
  | [], acc, cnt => some (acc, cnt)
  | '_' :: c :: rest, acc, cnt =>
      if isAsciiDigit c then dgAux rest (acc * 10 + (c.toNat - 48)) (cnt + 1)
      else none
  | c :: rest, acc, cnt =>
      if isAsciiDigit c then dgAux rest (acc * 10 + (c.toNat - 48)) (cnt + 1)
      else none

/-- Nonempty digit group: must start with a digit. -/
def digitGroup : List Char → Option (Nat × Nat)
  | [] => none
  | c :: rest => if isAsciiDigit c then dgAux rest (c.toNat - 48) 1 else none

/-- Possibly empty digit group (the integer or fractional part around a dot
may be absent). -/
def optDigitGroup : List Char → Option (Nat × Nat)
  | [] => some (0, 0)
  | l => digitGroup l

/-- Split a character list at the first separator, if any. -/
def splitAtFirst (sep : Char → Bool) : List Char → (List Char × Option (List Char))
  | [] => ([], none)
  | c :: rest =>
    if sep c then ([], some rest)
    else
      let (a, b) := splitAtFirst sep rest
      (c :: a, b)

/-- Mantissa of a float literal: integer part, optional dot, fractional part,
with at least one digit overall. Returns integer value, fraction value and
fraction digit count. -/
def parseMantissa (l : List Char) : Option (Nat × Nat × Nat) :=
  let (ip, fpOpt) := splitAtFirst (fun c => c = '.') l
  match fpOpt with
  | none => (digitGroup ip).map (fun v => (v.1, 0, 0))
  | some fp =>
    match optDigitGroup ip, optDigitGroup fp with
    | some (iv, ic), some (fv, fc) =>
      if ic + fc = 0 then none else some (iv, fv, fc)
    | _, _ => none

/-- Exponent of a float literal: optional sign then a digit group. -/
def parseExp (l : List Char) : Option Int :=
  match l with
  | '+' :: r => (digitGroup r).map (fun v => (v.1 : Int))
  | '-' :: r => (digitGroup r).map (fun v => -(v.1 : Int))
  | r => (digitGroup r).map (fun v => (v.1 : Int))

/-- Case-insensitive comparison against a lowercase ASCII word. -/
def lowerEq : List Char → List Char → Bool
  | [], [] => true
  | c :: cs, d :: ds =>
      (c == d || (isUpperLetter c && c.toNat + 32 == d.toNat)) && lowerEq cs ds
  | _, _ => false

/-- Decimal value (iv + fv / 10 ^ fd) * 10 ^ e as a DecVal. -/
def mkDecVal (iv fv fd : Nat) (e : Int) : DecVal :=
  let m : Int := Int.ofNat (iv * pow10 fd + fv)
  if 0 ≤ e then { num := m * Int.ofNat (pow10 e.toNat), e10 := fd }
  else { num := m, e10 := fd + (-e).toNat }

/-- Unsigned part of Python float(): the words inf, infinity, nan
(case-insensitive) or a decimal literal with optional exponent. -/
def parseUnsignedFloat (l : List Char) : Option PyFloat :=
  if lowerEq l ['i', 'n', 'f'] || lowerEq l ['i', 'n', 'f', 'i', 'n', 'i', 't', 'y'] then
    some .inf
  else if lowerEq l ['n', 'a', 'n'] then some .nan
  else
    let (mant, expOpt) := splitAtFirst (fun c => c = 'e' || c = 'E') l
    match parseMantissa mant, expOpt with
    | some (iv, fv, fd), none => some (.finite (mkDecVal iv fv fd 0))
    | some (iv, fv, fd), some ex => (parseExp ex).map (fun e => .finite (mkDecVal iv fv fd e))
    | none, _ => none

/-- Application of a leading minus sign. -/
def applySign (neg : Bool) : PyFloat → PyFloat
  | .finite v => .finite (if neg then DecVal.mk (-v.num) v.e10 else v)
  | .inf => if neg then .ninf else .inf
  | .ninf => if neg then .inf else .ninf
  | .nan => .nan

/-- Python float(): strip whitespace, optional sign, unsigned float. Returns
none where float() raises ValueError. -/
def pyFloatParse (s : String) : Option PyFloat :=
  match stripList s.data with
  | '+' :: r => (parseUnsignedFloat r).map (applySign false)
  | '-' :: r => (parseUnsignedFloat r).map (applySign true)
  | r => parseUnsignedFloat r

/-- IEEE comparison on parsed float values; NaN compares false. -/
def pyFloatLe : PyFloat → PyFloat → Bool
  | .nan, _ => false
  | _, .nan => false
  | .ninf, _ => true
  | .finite _, .ninf => false
  | .inf, .ninf => false
  | .finite a, .finite b => dvLe a b
  | .finite _, .inf => true
  | .inf, .inf => true
  | .inf, .finite _ => false

/-- QSOValidator.validate_frequency: float(freq) inside try, then the chained
comparison 0.1 <= freq_float <= 300000; ValueError yields False. The literals
0.1 and 300000 are the decimal values 1 / 10 and 300000. -/
def validate_frequency (freq : String) : Bool :=
  match pyFloatParse freq with
  | none => false
  | some v => pyFloatLe (.finite (DecVal.mk 1 1)) v && pyFloatLe v (.finite (DecVal.mk 300000 0))

theorem sanity_freq_examples :
    validate_frequency "14.074" = true ∧
    validate_frequency "0.05" = false ∧
    validate_frequency "abc" = false ∧
    validate_frequency "300000" = true ∧
    validate_frequency " 1e5 " = true ∧
    validate_frequency "inf" = false ∧
    validate_frequency "nan" = false ∧
    validate_frequency "-14" = false ∧
    validate_frequency "1_0" = true := by
  decide

theorem sanity_rst_examples :
    validate_rst "59" = .ok true ∧
    validate_rst "5" = .ok false ∧
    validate_rst "99" = .ok false ∧
    validate_rst "5a" = .ok false ∧
    validate_rst "" = .ok false :=
  ⟨rfl, rfl, rfl, rfl, rfl⟩

theorem sanity_callsign_examples :
    validate_callsign "W1AW" = true ∧
    validate_callsign "w1aw " = true ∧
    validate_callsign "HELLO" = false ∧
    validate_callsign "2E0ABC" = true ∧
    validate_callsign "" = false ∧
    validate_callsign "W1AW1" = false := by
  decide

/-! ## Claim C5: validate_frequency -/

theorem pow10_pos (k : Nat) : 0 < pow10 k := by
  induction k with
  | zero => simp [pow10]
  | succ n ih => simp [pow10]; omega

theorem dvLe_iff (a b : DecVal) : dvLe a b = true ↔ dvVal a ≤ dvVal b := by
  unfold dvLe dvVal
  rw [decide_eq_true_eq,
    div_le_div_iff₀ (by exact_mod_cast pow10_pos a.e10) (by exact_mod_cast pow10_pos b.e10)]
  constructor <;> intro h <;> exact_mod_cast h

theorem dvVal_low : dvVal (DecVal.mk 1 1) = (1 : ℚ) / 10 := by
  norm_num [dvVal, pow10]

theorem dvVal_high : dvVal (DecVal.mk 300000 0) = (300000 : ℚ) := by
  norm_num [dvVal, pow10]

/-- C5: validate_frequency returns true exactly when the input parses as a
decimal number (Python float syntax) with a finite value lying in the
inclusive range [0.1, 300000]; non-numeric input, NaN and the infinities
yield false rather than an error. -/
theorem c5_validate_frequency (s : String) :
    validate_frequency s = true ↔
      ∃ v : DecVal, pyFloatParse s = some (.finite v) ∧
        (1 : ℚ) / 10 ≤ dvVal v ∧ dvVal v ≤ 300000 := by
  unfold validate_frequency
  cases h : pyFloatParse s with
  | none => simp
  | some v =>
    cases v with
    | finite w => simp [pyFloatLe, dvLe_iff, dvVal_low, dvVal_high]
    | inf => simp [pyFloatLe]
    | ninf => simp [pyFloatLe]
    | nan => simp [pyFloatLe]

/-! ## Claim C4: validate_rst -/

theorem asciiDigit_isPyDecimal (c : Char) (h : isAsciiDigit c = true) :
    isPyDecimalDigit c = true := by
  simp [isPyDecimalDigit, h]

theorem pyDigit_ascii (c : Char) (hc : c.toNat < 128) (h : isPyDigitChar c = true) :
    isAsciiDigit c = true := by
  simp only [isPyDigitChar, isPyDecimalDigit, isAsciiDigit, Bool.or_eq_true,
    Bool.and_eq_true, decide_eq_true_eq] at h ⊢
  omega

theorem foldl_decDigit_ascii (l : List Char) (hl : l.all isAsciiDigit = true) (x : Nat) :
    l.foldl (fun a c => a * 10 + decDigitVal c) x =
      l.foldl (fun a c => a * 10 + (c.toNat - 48)) x := by
  induction l generalizing x with
  | nil => rfl
  | cons c cs ih =>
    simp only [List.all_cons, Bool.and_eq_true] at hl
    simp only [List.foldl_cons]
    rw [show decDigitVal c = c.toNat - 48 from by unfold decDigitVal; rw [if_pos hl.1]]
    exact ih hl.2 _

/-- C4 (counterexample): on the superscript-two character, which str.isdigit
accepts but int() rejects, validate_rst raises ValueError instead of
returning a boolean, refuting the claim that no input raises. -/
theorem c4_counterexample :
    validate_rst "²" = .error "invalid literal for int() with base 10" := rfl

/-- C4 (amended): for every input string whose characters are ASCII,
validate_rst returns a boolean without raising, and returns true exactly when
the string is a nonempty run of decimal digits whose value lies in [11, 59];
invalid ASCII input simply yields false. -/
theorem c4_validate_rst_ascii (s : String)
    (h : s.data.all (fun c => c.toNat < 128) = true) :
    ∃ b, validate_rst s = .ok b ∧
      (b = true ↔ s.data ≠ [] ∧ s.data.all isAsciiDigit = true ∧
        11 ≤ digitsVal s.data ∧ digitsVal s.data ≤ 59) := by
  rw [List.all_eq_true] at h
  by_cases hd : pyIsdigit s = true
  · have hd2 := hd
    unfold pyIsdigit at hd2
    rw [Bool.and_eq_true] at hd2
    have hne : s.data ≠ [] := by
      have := hd2.1
      simpa [List.isEmpty_iff] using this
    have hall : s.data.all isAsciiDigit = true := by
      rw [List.all_eq_true] at hd2 ⊢
      intro c hc
      exact pyDigit_ascii c (by simpa using h c hc) (hd2.2 c hc)
    have hint : pyIntOfDigits s = some (digitsVal s.data) := by
      have hcond : (!s.data.isEmpty && s.data.all isPyDecimalDigit) = true := by
        rw [Bool.and_eq_true]
        refine ⟨by simpa [List.isEmpty_iff] using hne, ?_⟩
        rw [List.all_eq_true] at hall ⊢
        exact fun c hc => asciiDigit_isPyDecimal c (hall c hc)
      unfold pyIntOfDigits
      rw [if_pos hcond, foldl_decDigit_ascii s.data hall 0]
      rfl
    refine ⟨decide (11 ≤ digitsVal s.data ∧ digitsVal s.data ≤ 59), ?_, ?_⟩
    · unfold validate_rst
      rw [if_pos hd, hint]
    · rw [decide_eq_true_eq]
      constructor
      · intro hv
        exact ⟨hne, hall, hv.1, hv.2⟩
      · rintro ⟨_, _, h1, h2⟩
        exact ⟨h1, h2⟩
  · refine ⟨false, ?_, ?_⟩
    · unfold validate_rst
      rw [if_neg hd]
    · simp only [Bool.false_eq_true, false_iff]
      rintro ⟨hne, hall, _⟩
      apply hd
      unfold pyIsdigit
      rw [Bool.and_eq_true]
      refine ⟨by simpa [List.isEmpty_iff] using hne, ?_⟩
      rw [List.all_eq_true] at hall ⊢
      intro c hc
      simp [isPyDigitChar, asciiDigit_isPyDecimal c (hall c hc)]

theorem c4_validate_rst_ascii_witness :
    ∃ b, validate_rst "59" = .ok b ∧
      (b = true ↔ "59".data ≠ [] ∧ "59".data.all isAsciiDigit = true ∧
        11 ≤ digitsVal "59".data ∧ digitsVal "59".data ≤ 59) :=
  c4_validate_rst_ascii "59" (by decide)

/-! ## ADIF record encoding (QSOLogger.create_adif_entry) -/

/-- Timestamp fields of a Python datetime, as used by strftime. -/
structure PyDateTime where
  year : Nat
  month : Nat
  day : Nat
  hour : Nat
  minute : Nat
  second : Nat
deriving DecidableEq

/-- Range invariants of datetime values produced by datetime.utcnow(): the
datetime type itself guarantees the month through second bounds, and utcnow
yields four-digit years, on which %Y renders exactly four digits on every
platform (CPython delegates %Y to the C library, which does not zero-pad
three-digit years on glibc). -/
def PyDateTime.valid (t : PyDateTime) : Prop :=
  1000 ≤ t.year ∧ t.year ≤ 9999 ∧ 1 ≤ t.month ∧ t.month ≤ 12 ∧
  1 ≤ t.day ∧ t.day ≤ 31 ∧ t.hour ≤ 23 ∧ t.minute ≤ 59 ∧ t.second ≤ 59

instance (t : PyDateTime) : Decidable t.valid := by
  unfold PyDateTime.valid
  infer_instance

/-- Zero-padding to width two, the %m %d %H %M %S strftime directives. -/
def pad2 (n : Nat) : String := if n < 10 then "0" ++ natStr n else natStr n

/-- dt.strftime of %Y%m%d. -/
def fmtDate (t : PyDateTime) : String := natStr t.year ++ pad2 t.month ++ pad2 t.day

/-- dt.strftime of %H%M%S. -/
def fmtTime (t : PyDateTime) : String := pad2 t.hour ++ pad2 t.minute ++ pad2 t.second

/-- QSO entry, the dictionary built by QSOLogger.gather_qso_data. -/
structure QsoEntry where
  call : String
  band : String
  freq : String
  mode : String
  rst_sent : String
  rst_recv : String
  dt : PyDateTime
deriving DecidableEq

/-- QSOLogger.create_adif_entry: the f-string concatenation, with len() of
each interpolated value and the hard-coded lengths 8 and 6 for the date and
time fields. -/
def create_adif_entry (q : QsoEntry) : String :=
  "<CALL:" ++ natStr q.call.length ++ ">" ++ q.call ++
  "<QSO_DATE:8>" ++ fmtDate q.dt ++
  "<TIME_ON:6>" ++ fmtTime q.dt ++
  "<BAND:" ++ natStr q.band.length ++ ">" ++ q.band ++
  "<FREQ:" ++ natStr q.freq.length ++ ">" ++ q.freq ++
  "<MODE:" ++ natStr q.mode.length ++ ">" ++ q.mode ++
  "<RST_SENT:" ++ natStr q.rst_sent.length ++ ">" ++ q.rst_sent ++
  "<RST_RCVD:" ++ natStr q.rst_recv.length ++ ">" ++ q.rst_recv ++
  "<EOR>"

/-- The eight emitted (tag, value) pairs, in order. -/
def adifFields (q : QsoEntry) : List (String × String) :=
  [("CALL", q.call), ("QSO_DATE", fmtDate q.dt), ("TIME_ON", fmtTime q.dt),
   ("BAND", q.band), ("FREQ", q.freq), ("MODE", q.mode),
   ("RST_SENT", q.rst_sent), ("RST_RCVD", q.rst_recv)]

/-- Modelled from the spec: serialization of a field list in the wire format
of section 6 — each field written as <TAGNAME:LENGTH>VALUE with LENGTH the
number of characters of VALUE, no separators, terminated by <EOR>. -/
def serFields : List (String × String) → String
  | [] => "<EOR>"
  | (t, v) :: rest => "<" ++ t ++ ":" ++ natStr v.length ++ ">" ++ v ++ serFields rest

/-- Modelled from the spec: the full record with character-count lengths. -/
def specAdifChars (q : QsoEntry) : String := serFields (adifFields q)

/-- Number of bytes of the UTF-8 encoding of one Unicode scalar value. -/
def charUtf8Size (c : Char) : Nat :=
  if c.toNat ≤ 0x7F then 1 else if c.toNat ≤ 0x7FF then 2
  else if c.toNat ≤ 0xFFFF then 3 else 4

/-- Byte length of s.encode of utf-8. -/
def utf8ByteLen (s : String) : Nat := s.data.foldl (fun a c => a + charUtf8Size c) 0

/-- Modelled from the spec: serialization of a field list with LENGTH the
UTF-8 byte length of VALUE, as claim C1 words it. -/
def serFieldsBytes : List (String × String) → String
  | [] => "<EOR>"
  | (t, v) :: rest => "<" ++ t ++ ":" ++ natStr (utf8ByteLen v) ++ ">" ++ v ++ serFieldsBytes rest

/-- Modelled from the spec: the full record with byte-count lengths. -/
def specAdifBytes (q : QsoEntry) : String := serFieldsBytes (adifFields q)

/-! ## ADIF record parsing (modelled from the spec, for the round trip) -/

/-- Modelled from the spec: parse an encoded record by reading each
<TAG:LENGTH> header, then LENGTH characters of value, up to the terminating
<EOR> marker; the repository itself contains no parser. The first argument
is recursion fuel. -/
def parseFields : Nat → List Char → Option (List (String × String))
  | 0, _ => none
  | fuel + 1, l =>
    if l = ['<', 'E', 'O', 'R', '>'] then some []
    else if l.head? = some '<' then
      let r1 := l.tail
      let tag := r1.takeWhile (fun c => c ≠ ':')
      let r2 := r1.dropWhile (fun c => c ≠ ':')
      if r2.head? = some ':' then
        let r3 := r2.tail
        let ds := r3.takeWhile isAsciiDigit
        let r4 := r3.dropWhile isAsciiDigit
        if ds ≠ [] ∧ r4.head? = some '>' then
          let r5 := r4.tail
          let n := digitsVal ds
          if n ≤ r5.length then
            (parseFields fuel (r5.drop n)).map
              (fun fs => (String.mk tag, String.mk (r5.take n)) :: fs)
          else none
        else none
      else none
    else none

/-- Record parse entry point, with enough fuel for any input. -/
def parseAdif (s : String) : Option (List (String × String)) :=
  parseFields (s.data.length + 1) s.data

/-! ## Decimal digit lemmas -/

theorem digitChar_isDigit (n : Nat) : isAsciiDigit (digitChar n) = true := by
  rcases n with _ | _ | _ | _ | _ | _ | _ | _ | _ | m <;> rfl

theorem digitChar_val (n : Nat) (h : n < 10) : (digitChar n).toNat - 48 = n := by
  interval_cases n <;> rfl

theorem natDigits_ne_nil (n : Nat) : natDigits n ≠ [] := by
  rw [natDigits_eq]
  split <;> simp

theorem natDigits_all_digit (n : Nat) : (natDigits n).all isAsciiDigit = true := by
  induction n using Nat.strong_induction_on with
  | _ n ih =>
    rw [natDigits_eq]
    split
    · simp [digitChar_isDigit]
    · rename_i h
      rw [List.all_append]
      simp [digitChar_isDigit,
        ih (n / 10) (Nat.div_lt_self (by omega) (by omega))]

theorem digitsVal_append_singleton (l : List Char) (c : Char) :
    digitsVal (l ++ [c]) = 10 * digitsVal l + (c.toNat - 48) := by
  unfold digitsVal
  rw [List.foldl_append]
  simp [List.foldl]
  ring

theorem digitsVal_natDigits (n : Nat) : digitsVal (natDigits n) = n := by
  induction n using Nat.strong_induction_on with
  | _ n ih =>
    rw [natDigits_eq]
    split
    · rename_i h
      simp [digitsVal, List.foldl, digitChar_val n h]
    · rename_i h
      rw [digitsVal_append_singleton,
        ih (n / 10) (Nat.div_lt_self (by omega) (by omega)),
        digitChar_val (n % 10) (Nat.mod_lt _ (by omega))]
      omega

theorem natDigits_len1 (n : Nat) (h : n < 10) : (natDigits n).length = 1 := by
  rw [natDigits_eq, if_pos h]
  rfl

theorem natDigits_len2 (n : Nat) (h1 : 10 ≤ n) (h2 : n < 100) :
    (natDigits n).length = 2 := by
  rw [natDigits_eq, if_neg (by omega)]
  rw [List.length_append, natDigits_len1 (n / 10) (by omega)]
  rfl

theorem natDigits_len3 (n : Nat) (h1 : 100 ≤ n) (h2 : n < 1000) :
    (natDigits n).length = 3 := by
  rw [natDigits_eq, if_neg (by omega)]
  rw [List.length_append, natDigits_len2 (n / 10) (by omega) (by omega)]
  rfl

theorem natDigits_len4 (n : Nat) (h1 : 1000 ≤ n) (h2 : n < 10000) :
    (natDigits n).length = 4 := by
  rw [natDigits_eq, if_neg (by omega)]
  rw [List.length_append, natDigits_len3 (n / 10) (by omega) (by omega)]
  rfl

/-! ## String data lemmas -/

theorem strData_append (a b : String) : (a ++ b).data = a.data ++ b.data := rfl

theorem strMk_data (s : String) : String.mk s.data = s := rfl

theorem strLength_data (s : String) : s.length = s.data.length := rfl

theorem pad2_data_length (n : Nat) (h : n ≤ 99) : (pad2 n).data.length = 2 := by
  unfold pad2
  split
  · rename_i h10
    rw [strData_append, List.length_append, show (natStr n).data = natDigits n from rfl,
      natDigits_len1 n (by omega)]
    rfl
  · rename_i h10
    rw [show (natStr n).data = natDigits n from rfl, natDigits_len2 n (by omega) (by omega)]

theorem fmtDate_length (t : PyDateTime) (h : t.valid) : (fmtDate t).length = 8 := by
  obtain ⟨h1, h2, h3, h4, h5, h6, _, _, _⟩ := h
  rw [strLength_data]
  unfold fmtDate
  rw [strData_append, strData_append, List.length_append, List.length_append,
    show (natStr t.year).data = natDigits t.year from rfl,
    natDigits_len4 t.year (by omega) (by omega),
    pad2_data_length t.month (by omega), pad2_data_length t.day (by omega)]

theorem fmtTime_length (t : PyDateTime) (h : t.valid) : (fmtTime t).length = 6 := by
  obtain ⟨_, _, _, _, _, _, h7, h8, h9⟩ := h
  rw [strLength_data]
  unfold fmtTime
  rw [strData_append, strData_append, List.length_append, List.length_append,
    pad2_data_length t.hour (by omega), pad2_data_length t.minute (by omega),
    pad2_data_length t.second (by omega)]

/-! ## takeWhile and dropWhile over an append -/

theorem takeWhile_append_all {α : Type} (p : α → Bool) (xs : List α)
    (hxs : ∀ x ∈ xs, p x = true) (y : α) (hy : p y = false) (ys : List α) :
    (xs ++ y :: ys).takeWhile p = xs := by
  induction xs with
  | nil => simp [List.takeWhile_cons, hy]
  | cons a as ih =>
    have ha := hxs a (by simp)
    simp only [List.cons_append, List.takeWhile_cons, ha, if_true]
    rw [ih (fun x hx => hxs x (by simp [hx]))]

theorem dropWhile_append_all {α : Type} (p : α → Bool) (xs : List α)
    (hxs : ∀ x ∈ xs, p x = true) (y : α) (hy : p y = false) (ys : List α) :
    (xs ++ y :: ys).dropWhile p = y :: ys := by
  induction xs with
  | nil => simp [List.dropWhile_cons, hy]
  | cons a as ih =>
    have ha := hxs a (by simp)
    simp only [List.cons_append, List.dropWhile_cons, ha, if_true]
    exact ih (fun x hx => hxs x (by simp [hx]))

/-! ## Round-trip lemmas -/

theorem cons_tag_ne_eor (t X : List Char) :
    ('<' :: (t ++ ':' :: X)) ≠ ['<', 'E', 'O', 'R', '>'] := by
  intro h
  rcases t with _ | ⟨a, _ | ⟨b, _ | ⟨c, _ | ⟨d, tl⟩⟩⟩⟩ <;> simp_all

theorem parseFields_eor (fuel : Nat) :
    parseFields (fuel + 1) ['<', 'E', 'O', 'R', '>'] = some [] := by
  rw [parseFields, if_pos rfl]

theorem parseFields_field (fuel : Nat) (tag ds v rest : List Char)
    (htag : ∀ x ∈ tag, (x ≠ ':' : Bool) = true)
    (hds : ∀ x ∈ ds, isAsciiDigit x = true) (hdsne : ds ≠ [])
    (hval : digitsVal ds = v.length) :
    parseFields (fuel + 1) ('<' :: (tag ++ ':' :: (ds ++ '>' :: (v ++ rest)))) =
      (parseFields fuel rest).map (fun fs => (String.mk tag, String.mk v) :: fs) := by
  rw [parseFields, if_neg (cons_tag_ne_eor tag _)]
  simp only [List.head?_cons, List.tail_cons, if_true]
  rw [dropWhile_append_all _ tag htag ':' (by simp),
    takeWhile_append_all _ tag htag ':' (by simp)]
  simp only [List.head?_cons, List.tail_cons, if_true]
  rw [takeWhile_append_all _ ds hds '>' (by rfl),
    dropWhile_append_all _ ds hds '>' (by rfl)]
  simp only [List.head?_cons, List.tail_cons, and_true]
  rw [if_pos hdsne]
  rw [hval, if_pos (by rw [List.length_append]; omega)]
  rw [List.take_left, List.drop_left]

theorem natStr_data (n : Nat) : (natStr n).data = natDigits n := rfl

theorem dataEor : "<EOR>".data = ['<', 'E', 'O', 'R', '>'] := rfl

theorem strEta (a b : String) (h : a.data = b.data) : a = b := by
  cases a
  cases b
  exact congrArg String.mk h

theorem serFields_cons_data (t v : String) (rest : List (String × String)) :
    (serFields ((t, v) :: rest)).data =
      '<' :: (t.data ++ ':' :: (natDigits v.length ++ '>' :: (v.data ++ (serFields rest).data))) := by
  show ("<" ++ t ++ ":" ++ natStr v.length ++ ">" ++ v ++ serFields rest).data = _
  simp [strData_append, natStr_data, show "<".data = ['<'] from rfl,
    show ":".data = [':'] from rfl, show ">".data = ['>'] from rfl]

theorem parseFields_ser (fs : List (String × String)) : ∀ fuel : Nat,
    fs.length + 1 ≤ fuel →
    (∀ p ∈ fs, ∀ c ∈ (p.1 : String).data, (c ≠ ':' : Bool) = true) →
    parseFields fuel (serFields fs).data = some fs := by
  induction fs with
  | nil =>
    intro fuel hfuel htags
    obtain ⟨f, rfl⟩ : ∃ f, fuel = f + 1 := ⟨fuel - 1, by omega⟩
    rw [show serFields [] = "<EOR>" from rfl, dataEor]
    exact parseFields_eor f
  | cons p rest ih =>
    intro fuel hfuel htags
    obtain ⟨t, v⟩ := p
    obtain ⟨f, rfl⟩ : ∃ f, fuel = f + 1 := ⟨fuel - 1, by omega⟩
    rw [serFields_cons_data]
    rw [parseFields_field f t.data (natDigits v.length) v.data (serFields rest).data
      (htags (t, v) (by simp)) (fun x hx => by
        have := natDigits_all_digit v.length
        rw [List.all_eq_true] at this
        exact this x hx)
      (natDigits_ne_nil _)
      (by rw [digitsVal_natDigits]; rfl)]
    rw [ih f (by simp only [List.length_cons] at hfuel; omega)
      (fun p hp => htags p (by simp [hp]))]
    rw [strMk_data, strMk_data]
    rfl

theorem serFields_data_length (fs : List (String × String)) :
    fs.length + 5 ≤ (serFields fs).data.length := by
  induction fs with
  | nil => simp [serFields, dataEor]
  | cons p rest ih =>
    obtain ⟨t, v⟩ := p
    rw [serFields_cons_data]
    simp only [List.length_cons, List.length_append]
    omega

/-- The encoder output equals the spec serialization with character-count
lengths: in particular the hard-coded QSO_DATE and TIME_ON lengths 8 and 6
match the rendered date and time exactly, for timestamps in the range
datetime.utcnow() produces. -/
theorem create_eq_serFields (q : QsoEntry) (h : q.dt.valid) :
    create_adif_entry q = serFields (adifFields q) := by
  have h8 : (fmtDate q.dt).length = 8 := fmtDate_length _ h
  have h6 : (fmtTime q.dt).length = 6 := fmtTime_length _ h
  apply strEta
  unfold create_adif_entry adifFields
  simp only [serFields, h8, h6]
  simp [strData_append, natStr_data, show natDigits 8 = ['8'] from by rw [natDigits_eq]; rfl,
    show natDigits 6 = ['6'] from by rw [natDigits_eq]; rfl,
    show "<".data = ['<'] from rfl, show ":".data = [':'] from rfl,
    show ">".data = ['>'] from rfl, show "<CALL:".data = ['<', 'C', 'A', 'L', 'L', ':'] from rfl,
    show "<QSO_DATE:8>".data =
      ['<', 'Q', 'S', 'O', '_', 'D', 'A', 'T', 'E', ':', '8', '>'] from rfl,
    show "<TIME_ON:6>".data = ['<', 'T', 'I', 'M', 'E', '_', 'O', 'N', ':', '6', '>'] from rfl,
    show "<BAND:".data = ['<', 'B', 'A', 'N', 'D', ':'] from rfl,
    show "<FREQ:".data = ['<', 'F', 'R', 'E', 'Q', ':'] from rfl,
    show "<MODE:".data = ['<', 'M', 'O', 'D', 'E', ':'] from rfl,
    show "<RST_SENT:".data = ['<', 'R', 'S', 'T', '_', 'S', 'E', 'N', 'T', ':'] from rfl,
    show "<RST_RCVD:".data = ['<', 'R', 'S', 'T', '_', 'R', 'C', 'V', 'D', ':'] from rfl,
    show "CALL".data = ['C', 'A', 'L', 'L'] from rfl,
    show "QSO_DATE".data = ['Q', 'S', 'O', '_', 'D', 'A', 'T', 'E'] from rfl,
    show "TIME_ON".data = ['T', 'I', 'M', 'E', '_', 'O', 'N'] from rfl,
    show "BAND".data = ['B', 'A', 'N', 'D'] from rfl,
    show "FREQ".data = ['F', 'R', 'E', 'Q'] from rfl,
    show "MODE".data = ['M', 'O', 'D', 'E'] from rfl,
    show "RST_SENT".data = ['R', 'S', 'T', '_', 'S', 'E', 'N', 'T'] from rfl,
    show "RST_RCVD".data = ['R', 'S', 'T', '_', 'R', 'C', 'V', 'D'] from rfl]

/-- C9: parsing the encoded record — reading each <TAG:LENGTH> header and
taking LENGTH characters of value, up to the terminating <EOR> — recovers the
eight emitted field values of the entry exactly, for any entry whose
timestamp lies in the range datetime.utcnow() produces. -/
theorem c9_adif_roundtrip (q : QsoEntry) (h : q.dt.valid) :
    parseAdif (create_adif_entry q) = some (adifFields q) := by
  unfold parseAdif
  rw [create_eq_serFields q h]
  apply parseFields_ser
  · have := serFields_data_length (adifFields q)
    simp only [adifFields, List.length_cons, List.length_nil] at this ⊢
    omega
  · intro p hp
    fin_cases hp <;> simp_all

theorem c9_adif_roundtrip_witness :
    parseAdif (create_adif_entry
        ⟨"W1AW", "20m", "14.074", "FT8", "59", "59", ⟨2026, 10, 12, 3, 4, 5⟩⟩) =
      some (adifFields
        ⟨"W1AW", "20m", "14.074", "FT8", "59", "59", ⟨2026, 10, 12, 3, 4, 5⟩⟩) :=
  c9_adif_roundtrip _ (by decide)

/-! ## Claim C1: encoding shape and length prefixes -/

/-- Every character of the string is ASCII. -/
def isAsciiString (s : String) : Bool := s.data.all (fun c => c.toNat ≤ 127)

theorem utf8_foldl_ascii (l : List Char) (h : ∀ c ∈ l, charUtf8Size c = 1) :
    ∀ a : Nat, l.foldl (fun a c => a + charUtf8Size c) a = a + l.length := by
  induction l with
  | nil => intro a; simp
  | cons c cs ih =>
    intro a
    rw [List.foldl_cons, h c (by simp),
      ih (fun x hx => h x (by simp [hx]))]
    simp only [List.length_cons]
    omega

theorem utf8ByteLen_ascii (s : String) (h : isAsciiString s = true) :
    utf8ByteLen s = s.length := by
  unfold utf8ByteLen
  unfold isAsciiString at h
  rw [List.all_eq_true] at h
  rw [utf8_foldl_ascii s.data (fun c hc => by
    unfold charUtf8Size
    rw [if_pos (by simpa using h c hc)])]
  rw [strLength_data]
  omega

theorem serBytes_eq_serChars (fs : List (String × String))
    (h : ∀ p ∈ fs, isAsciiString p.2 = true) :
    serFieldsBytes fs = serFields fs := by
  induction fs with
  | nil => rfl
  | cons p rest ih =>
    obtain ⟨t, v⟩ := p
    show "<" ++ t ++ ":" ++ natStr (utf8ByteLen v) ++ ">" ++ v ++ serFieldsBytes rest = _
    rw [utf8ByteLen_ascii v (h (t, v) (by simp)), ih (fun p hp => h p (by simp [hp]))]
    rfl

theorem serFields_eor_suffix (fs : List (String × String)) :
    ∃ t, serFields fs = t ++ "<EOR>" := by
  induction fs with
  | nil => exact ⟨"", rfl⟩
  | cons p rest ih =>
    obtain ⟨t, v⟩ := p
    obtain ⟨u, hu⟩ := ih
    refine ⟨"<" ++ t ++ ":" ++ natStr v.length ++ ">" ++ v ++ u, ?_⟩
    show "<" ++ t ++ ":" ++ natStr v.length ++ ">" ++ v ++ serFields rest = _
    rw [hu]
    apply strEta
    simp [strData_append, List.append_assoc]

/-- C1 (counterexample): at an entry whose RST-received value is a non-ASCII
character, the encoder output differs from the record the claim describes —
the declared length is len() of the value, the number of characters, while
the UTF-8 wire encoding of the value is longer, so the declared LENGTH does
not equal the byte length of the VALUE. -/
theorem c1_counterexample :
    create_adif_entry
        ⟨"W1AW", "20m", "14.074", "FT8", "59", "é", ⟨2026, 10, 12, 3, 4, 5⟩⟩ ≠
      specAdifBytes
        ⟨"W1AW", "20m", "14.074", "FT8", "59", "é", ⟨2026, 10, 12, 3, 4, 5⟩⟩ := by
  decide

/-- C1 (amended): for every QsoEntry with a timestamp in the range
datetime.utcnow() produces, the encoder emits exactly the eight fields CALL,
QSO_DATE, TIME_ON, BAND, FREQ, MODE, RST_SENT, RST_RCVD in order, each as
<TAGNAME:LENGTH>VALUE with no separators, where LENGTH is the number of
characters of VALUE, and the output ends with the literal <EOR> marker;
whenever every field value is ASCII, LENGTH also equals the UTF-8 byte
length of VALUE on the wire. -/
theorem c1_encoding_lengths (q : QsoEntry) (h : q.dt.valid) :
    create_adif_entry q = specAdifChars q ∧
    (∃ t, create_adif_entry q = t ++ "<EOR>") ∧
    ((∀ p ∈ adifFields q, isAsciiString p.2 = true) →
      create_adif_entry q = specAdifBytes q) := by
  refine ⟨create_eq_serFields q h, ?_, ?_⟩
  · rw [create_eq_serFields q h]
    exact serFields_eor_suffix _
  · intro hascii
    rw [create_eq_serFields q h]
    unfold specAdifBytes
    rw [serBytes_eq_serChars _ hascii]

theorem c1_encoding_lengths_witness :
    create_adif_entry
        ⟨"W1AW", "20m", "14.074", "FT8", "59", "59", ⟨2026, 10, 12, 3, 4, 5⟩⟩ =
      specAdifChars
        ⟨"W1AW", "20m", "14.074", "FT8", "59", "59", ⟨2026, 10, 12, 3, 4, 5⟩⟩ ∧
    (∃ t, create_adif_entry
        ⟨"W1AW", "20m", "14.074", "FT8", "59", "59", ⟨2026, 10, 12, 3, 4, 5⟩⟩ =
      t ++ "<EOR>") ∧
    create_adif_entry
        ⟨"W1AW", "20m", "14.074", "FT8", "59", "59", ⟨2026, 10, 12, 3, 4, 5⟩⟩ =
      specAdifBytes
        ⟨"W1AW", "20m", "14.074", "FT8", "59", "59", ⟨2026, 10, 12, 3, 4, 5⟩⟩ := by
  have h := c1_encoding_lengths
    ⟨"W1AW", "20m", "14.074", "FT8", "59", "59", ⟨2026, 10, 12, 3, 4, 5⟩⟩ (by decide)
  exact ⟨h.1, h.2.1, h.2.2 (by decide)⟩

/-! ## QRZ lookup flow (QRZLookupThread) -/

/-- Direct child of an XML element, as read by the lookup code: only its tag
and text are consumed. -/
structure XmlChild where
  tag : String
  text : Option String
deriving DecidableEq

/-- An XML element as consumed by the lookup code: tag, text, and direct
children. A parsed response is modelled as the sequence of elements yielded
by root.iter() in document order, each carrying its direct children. -/
structure XmlNode where
  tag : String
  text : Option String
  children : List XmlChild
deriving DecidableEq

/-- Python str.endswith. -/
def strEndsWith (s sfx : String) : Bool :=
  if sfx.data.length ≤ s.data.length then
    s.data.drop (s.data.length - sfx.data.length) == sfx.data
  else false

/-- Python f-string rendering of a value that may be None. -/
def pyStrOfOpt : Option String → String
  | some s => s
  | none => "None"

/-- Scan of the direct children of a session element: the first child whose
tag ends in Key yields the session key, the first child whose tag ends in
Error raises; Message children are only printed. -/
def childKeyOrError : List XmlChild → Option (Except (Option String) (Option String))
  | [] => none
  | c :: rest =>
    if strEndsWith c.tag "Key" then some (.ok c.text)
    else if strEndsWith c.tag "Error" then some (.error c.text)
    else childKeyOrError rest

/-- Scan of all elements whose tag ends in Session, in document order,
stopping at the first session that contains a Key or Error child. -/
def scanSessions : List XmlNode → Option (Except (Option String) (Option String))
  | [] => none
  | el :: rest =>
    if strEndsWith el.tag "Session" then
      match childKeyOrError el.children with
      | some r => some r
      | none => scanSessions rest
    else scanSessions rest

/-- QRZLookupThread.get_session_key on a well-formed HTTP 200 XML response:
either the captured session key (possibly a None text), or the exception
message produced by the chain of raises — the QRZ Auth Error raise is caught
by the generic handler and rewrapped as an Authentication failed message. -/
def get_session_key (resp : List XmlNode) : Except String (Option String) :=
  match scanSessions resp with
  | some (.ok k) => .ok k
  | some (.error t) => .error ("Authentication failed: QRZ Auth Error: " ++ pyStrOfOpt t)
  | none => .error "Authentication failed: No session key found"

/-- Python tag.split of the namespace brace: the suffix after the last
closing brace, or the whole tag if none. -/
def dropNamespaceTag (t : String) : String :=
  if t.data.contains '\x7d' then
    String.mk (t.data.reverse.takeWhile (fun c => c ≠ '\x7d')).reverse
  else t

/-- Python dict assignment data[key] = value, preserving insertion order. -/
def upsert (k v : String) : List (String × String) → List (String × String)
  | [] => [(k, v)]
  | (k2, v2) :: rest => if k2 = k then (k2, v) :: rest else (k2, v2) :: upsert k v rest

/-- Children of a Callsign element flattened into the data dict: truthy text
only, namespace stripped from the tag, text stripped of whitespace. -/
def childFields : List XmlChild → List (String × String) → List (String × String)
  | [], acc => acc
  | c :: rest, acc =>
    match c.text with
    | some txt =>
      if txt ≠ "" then childFields rest (upsert (dropNamespaceTag c.tag) (pyStrip txt) acc)
      else childFields rest acc
    | none => childFields rest acc

def collectAux : List XmlNode → List (String × String) → List (String × String)
  | [], acc => acc
  | el :: rest, acc =>
    if strEndsWith el.tag "Callsign" then collectAux rest (childFields el.children acc)
    else collectAux rest acc

/-- Field collection of QRZLookupThread.lookup_callsign: children of every
element whose tag ends in Callsign, in document order. -/
def collectCallsignData (resp : List XmlNode) : List (String × String) :=
  collectAux resp []

/-- QRZLookupThread.lookup_callsign on a well-formed HTTP 200 XML response:
the collected data if nonempty, otherwise None — the Error and Message
elements of a no-data response are only printed, never returned or raised. -/
def lookup_callsign (resp : List XmlNode) : Option (List (String × String)) :=
  let data := collectCallsignData resp
  if data = [] then none else some data

/-- Outcome of one QRZLookupThread.run: which signal fires with what payload,
and whether the callsign query request was issued at all. -/
structure RunResult where
  outcome : Except String (List (String × String))
  queryCalled : Bool

/-- QRZLookupThread.run, given the parsed session response and the parsed
query response: authenticate, then look up; any exception is emitted as a
lookup error prefixed QRZ lookup error, and a lookup with no data emits the
generic No data found message naming the thread callsign (upper of strip of
the raw input). A None session key passes get_session_key but the debug
slice of it then raises, so the query is never issued in that case either. -/
def runLookup (rawCall : String) (sess query : List XmlNode) : RunResult :=
  match get_session_key sess with
  | .error e => ⟨.error ("QRZ lookup error: " ++ e), false⟩
  | .ok none =>
    ⟨.error "QRZ lookup error: 'NoneType' object is not subscriptable", false⟩
  | .ok (some _) =>
    match lookup_callsign query with
    | some data => ⟨.ok data, true⟩
    | none => ⟨.error ("No data found for " ++ pyStrip (pyUpper rawCall)), true⟩

/-- All Key and Error hits of the session scan, in scan order. -/
def childHits : List XmlChild → List (Except (Option String) (Option String))
  | [] => []
  | c :: rest =>
    if strEndsWith c.tag "Key" then .ok c.text :: childHits rest
    else if strEndsWith c.tag "Error" then .error c.text :: childHits rest
    else childHits rest

def sessionKeyErrorHits : List XmlNode → List (Except (Option String) (Option String))
  | [] => []
  | el :: rest =>
    if strEndsWith el.tag "Session" then childHits el.children ++ sessionKeyErrorHits rest
    else sessionKeyErrorHits rest

/-- Modelled from the spec: the response contains an error field, that is,
some session element has a child whose tag ends in Error. -/
def sessionHasErrorField (resp : List XmlNode) : Bool :=
  resp.any fun el =>
    strEndsWith el.tag "Session" &&
    el.children.any (fun c => strEndsWith c.tag "Error")

theorem childKeyOrError_eq_head (cs : List XmlChild) :
    childKeyOrError cs = (childHits cs).head? := by
  induction cs with
  | nil => rfl
  | cons c rest ih =>
    simp only [childKeyOrError, childHits]
    split_ifs <;> simp [ih]

theorem scanSessions_eq_head (l : List XmlNode) :
    scanSessions l = (sessionKeyErrorHits l).head? := by
  induction l with
  | nil => rfl
  | cons el rest ih =>
    simp only [scanSessions, sessionKeyErrorHits]
    split_ifs with hs
    · rw [childKeyOrError_eq_head]
      cases hh : childHits el.children with
      | nil => simp [ih]
      | cons a as => simp
    · exact ih

/-- C6 (counterexample): a session response that does contain an error field
but lists a key field before it authenticates successfully — the Key child is
captured first and the scan returns — so the lookup proceeds to call the
query endpoint, refuting the claim that any response containing an error
field fails with an authentication error and never queries. -/
theorem c6_counterexample :
    sessionHasErrorField
        [⟨"Session", none, [⟨"Key", some "abc123"⟩, ⟨"Error", some "bad password"⟩]⟩] = true ∧
    (runLookup "W1AW"
        [⟨"Session", none, [⟨"Key", some "abc123"⟩, ⟨"Error", some "bad password"⟩]⟩]
        [⟨"Callsign", none, [⟨"call", some "W1AW"⟩]⟩]).queryCalled = true ∧
    (runLookup "W1AW"
        [⟨"Session", none, [⟨"Key", some "abc123"⟩, ⟨"Error", some "bad password"⟩]⟩]
        [⟨"Callsign", none, [⟨"call", some "W1AW"⟩]⟩]).outcome = .ok [("call", "W1AW")] :=
  ⟨rfl, rfl, rfl⟩

/-- C6 (amended): for every session-endpoint response in which the first key
or error field encountered — scanning the session elements and their children
in document order — is an error field, the lookup fails with an
authentication error carrying the server-supplied message, and the query
endpoint is never called. -/
theorem c6_auth_error_no_query (rawCall : String) (sess query : List XmlNode)
    (t : Option String)
    (h : (sessionKeyErrorHits sess).head? = some (.error t)) :
    (runLookup rawCall sess query).queryCalled = false ∧
    (runLookup rawCall sess query).outcome =
      .error ("QRZ lookup error: Authentication failed: QRZ Auth Error: " ++ pyStrOfOpt t) := by
  have hs : scanSessions sess = some (.error t) := by
    rw [scanSessions_eq_head]
    exact h
  unfold runLookup get_session_key
  rw [hs]
  exact ⟨rfl, rfl⟩

theorem c6_auth_error_no_query_witness :
    (runLookup "W1AW"
        [⟨"Session", none, [⟨"Error", some "Username/password incorrect"⟩]⟩]
        [⟨"Callsign", none, [⟨"call", some "W1AW"⟩]⟩]).queryCalled = false ∧
    (runLookup "W1AW"
        [⟨"Session", none, [⟨"Error", some "Username/password incorrect"⟩]⟩]
        [⟨"Callsign", none, [⟨"call", some "W1AW"⟩]⟩]).outcome =
      .error ("QRZ lookup error: Authentication failed: QRZ Auth Error: " ++
        pyStrOfOpt (some "Username/password incorrect")) :=
  c6_auth_error_no_query "W1AW"
    [⟨"Session", none, [⟨"Error", some "Username/password incorrect"⟩]⟩]
    [⟨"Callsign", none, [⟨"call", some "W1AW"⟩]⟩]
    (some "Username/password incorrect") rfl

/-- Substring test over character lists. -/
def listInfix (a b : List Char) : Bool :=
  (List.range (b.length + 1)).any fun i => (b.drop i).take a.length == a

/-- Modelled from the spec: the query response has an error or message
element present. -/
def responseHasErrorOrMessage (resp : List XmlNode) : Bool :=
  resp.any fun el => strEndsWith el.tag "Error" || strEndsWith el.tag "Message"

/-- C7 (counterexample): on a query response with no station-record fields
and an error element carrying the server text Session Timeout, the lookup
fails with the generic No data found message, which does not contain the
server-supplied text — the error element is only printed to debug output —
refuting the claim that the failure carries the server text (and the single
generic failure also draws no NotFoundError versus ServiceMessage
distinction). -/
theorem c7_counterexample :
    responseHasErrorOrMessage
        [⟨"Session", none, [⟨"Error", some "Session Timeout"⟩]⟩,
         ⟨"Error", some "Session Timeout", []⟩] = true ∧
    collectCallsignData
        [⟨"Session", none, [⟨"Error", some "Session Timeout"⟩]⟩,
         ⟨"Error", some "Session Timeout", []⟩] = [] ∧
    (runLookup "W1AW"
        [⟨"Session", none, [⟨"Key", some "abc123"⟩]⟩]
        [⟨"Session", none, [⟨"Error", some "Session Timeout"⟩]⟩,
         ⟨"Error", some "Session Timeout", []⟩]).outcome =
      .error "No data found for W1AW" ∧
    listInfix "Session Timeout".data "No data found for W1AW".data = false :=
  ⟨rfl, rfl, rfl, rfl⟩

/-- C7 (amended): for every query-endpoint response in which no
station-record fields are parsed, the lookup fails with the generic message
No data found for the thread callsign — regardless of any error or message
element, whose server-supplied text is only printed to debug output, not
carried in the failure. -/
theorem c7_no_data_generic (rawCall : String) (k : String) (sess query : List XmlNode)
    (hk : get_session_key sess = .ok (some k))
    (hq : collectCallsignData query = []) :
    (runLookup rawCall sess query).outcome =
      .error ("No data found for " ++ pyStrip (pyUpper rawCall)) ∧
    (runLookup rawCall sess query).queryCalled = true := by
  unfold runLookup
  rw [hk]
  unfold lookup_callsign
  rw [hq]
  exact ⟨rfl, rfl⟩

theorem c7_no_data_generic_witness :
    (runLookup "W1AW"
        [⟨"Session", none, [⟨"Key", some "abc123"⟩]⟩]
        [⟨"Session", none, [⟨"Error", some "Session Timeout"⟩]⟩,
         ⟨"Error", some "Session Timeout", []⟩]).outcome =
      .error ("No data found for " ++ pyStrip (pyUpper "W1AW")) ∧
    (runLookup "W1AW"
        [⟨"Session", none, [⟨"Key", some "abc123"⟩]⟩]
        [⟨"Session", none, [⟨"Error", some "Session Timeout"⟩]⟩,
         ⟨"Error", some "Session Timeout", []⟩]).queryCalled = true :=
  c7_no_data_generic "W1AW" "abc123"
    [⟨"Session", none, [⟨"Key", some "abc123"⟩]⟩]
    [⟨"Session", none, [⟨"Error", some "Session Timeout"⟩]⟩,
     ⟨"Error", some "Session Timeout", []⟩]
    rfl rfl

/-! ## Upper-casing idempotence -/

theorem charOfNat_toNat (n : Nat) (h : n < 0xD800) : (Char.ofNat n).toNat = n := by
  unfold Char.ofNat
  rw [dif_pos]
  · rfl
  · exact Or.inl (by exact_mod_cast h)

theorem upChar_upChar (c : Char) : upChar (upChar c) = upChar c := by
  by_cases h : 97 ≤ c.toNat ∧ c.toNat ≤ 122
  · have h1 : upChar c = Char.ofNat (c.toNat - 32) := by
      unfold upChar
      rw [if_pos h]
    rw [h1]
    have ht : (Char.ofNat (c.toNat - 32)).toNat = c.toNat - 32 :=
      charOfNat_toNat _ (by omega)
    unfold upChar
    rw [if_neg (by rw [ht]; omega)]
  · have h1 : upChar c = c := by
      unfold upChar
      rw [if_neg h]
    rw [h1, h1]

theorem pyUpper_idem (s : String) : pyUpper (pyUpper s) = pyUpper s := by
  show String.mk ((s.data.map upChar).map upChar) = String.mk (s.data.map upChar)
  congr 1
  rw [List.map_map]
  exact List.map_congr_left (fun a _ => upChar_upChar a)

/-- A callsign text whose stripped form validates still validates after the
upper-casing that gather_qso_data applies to build the entry. -/
theorem validate_callsign_gather (t : String)
    (h : validate_callsign (pyStrip t) = true) :
    validate_callsign (pyUpper (pyStrip t)) = true := by
  unfold validate_callsign at h ⊢
  rw [pyUpper_idem (pyStrip t)]
  exact h

/-! ## The logging state machine (QSOLogger) -/

/-- Outcome of the one UDP datagram send, an oracle input of the log event. -/
inductive SendOutcome where
  | ok
  | timeout
  | sockError (msg : String)
deriving DecidableEq

/-- The socket timeout set by send_to_log4om (sock.settimeout(5)). -/
def udpTimeoutSeconds : Nat := 5

/-- QSOLogger.send_to_log4om: sends one datagram; socket.timeout and
socket.error are re-raised synchronously as wrapped exceptions. -/
def send_to_log4om (_adif : String) (net : SendOutcome) : Except String Unit :=
  match net with
  | .ok => .ok ()
  | .timeout => .error "Connection timeout - check IP and port settings"
  | .sockError m => .error ("Network error: " ++ m)

/-- Interface state of the main window, with the observable histories of the
core actions: ADIF records encoded, datagrams handed to the socket, lines of
the Recent QSOs display, qso_logged signal emissions, and error dialogs. -/
structure UiState where
  callText : String
  freqText : String
  bandSel : String
  modeSel : String
  rstSentText : String
  rstRecvText : String
  logEnabled : Bool
  autoClear : Bool
  defaultRstSent : String
  defaultRstRecv : String
  encoded : List String
  sent : List String
  recentLog : List String
  signals : List String
  dialogs : List String
deriving DecidableEq

/-- QSOLogger.update_log_button_state: both stripped texts must be nonempty
and pass their validators. Runs on every textChanged of either field. -/
def computeLogEnabled (c f : String) : Bool :=
  (pyStrip c ≠ "" && validate_callsign (pyStrip c)) &&
  (pyStrip f ≠ "" && validate_frequency (pyStrip f))

/-- QSOLogger.gather_qso_data, with the utcnow() instant as a parameter. -/
def gather_qso_data (s : UiState) (dtUtc : PyDateTime) : QsoEntry :=
  { call := pyUpper (pyStrip s.callText)
    band := s.bandSel
    freq := pyStrip s.freqText
    mode := s.modeSel
    rst_sent := s.rstSentText
    rst_recv := s.rstRecvText
    dt := dtUtc }

/-- User and system events of the interactive domain. The logClick event
carries the utcnow() and now() instants and the network outcome of the
datagram send as oracle inputs. -/
inductive UiEvent where
  | setCall (t : String)
  | setFreq (t : String)
  | setBand (t : String)
  | setMode (t : String)
  | setRstSent (t : String)
  | setRstRecv (t : String)
  | logClick (dtUtc dtLoc : PyDateTime) (net : SendOutcome)
  | clearAll
deriving DecidableEq

/-- One step of the interactive domain. Editing a text field re-runs
update_log_button_state (textChanged is wired to it); log_qso returns
immediately when the button is disabled, otherwise gathers, encodes, sends,
and on success runs handle_successful_log (Recent QSOs line, qso_logged
signal, optional auto-clear of the callsign, which again disables the
button through textChanged); on a send exception it shows the error dialog
and performs no success handling. -/
def uiStep (s : UiState) : UiEvent → UiState
  | .setCall t => { s with callText := t, logEnabled := computeLogEnabled t s.freqText }
  | .setFreq t => { s with freqText := t, logEnabled := computeLogEnabled s.callText t }
  | .setBand t => { s with bandSel := t }
  | .setMode t => { s with modeSel := t }
  | .setRstSent t => { s with rstSentText := t }
  | .setRstRecv t => { s with rstRecvText := t }
  | .clearAll =>
    { s with
      callText := ""
      freqText := ""
      rstSentText := s.defaultRstSent
      rstRecvText := s.defaultRstRecv
      bandSel := "20m"
      modeSel := "FT8"
      logEnabled := computeLogEnabled "" "" }
  | .logClick dtUtc dtLoc net =>
    if s.logEnabled then
      let q := gather_qso_data s dtUtc
      let adif := create_adif_entry q
      let s1 := { s with encoded := s.encoded ++ [adif] }
      match send_to_log4om adif net with
      | .error m => { s1 with dialogs := s1.dialogs ++ ["Failed to log QSO: " ++ m] }
      | .ok _ =>
        let s2 := { s1 with
          sent := s1.sent ++ [adif]
          recentLog := s1.recentLog ++
            ["[" ++ fmtTime dtLoc ++ "] " ++ q.call ++ " logged successfully"]
          signals := s1.signals ++ [q.call] }
        if s2.autoClear then
          { s2 with callText := "", logEnabled := computeLogEnabled "" s2.freqText }
        else s2
    else s

/-- Initial state: empty inputs, combo defaults, the log button created
disabled, configuration defaults for the reports and auto-clear. -/
def uiInit : UiState :=
  { callText := "", freqText := "", bandSel := "20m", modeSel := "FT8",
    rstSentText := "59", rstRecvText := "59",
    logEnabled := false, autoClear := true,
    defaultRstSent := "59", defaultRstRecv := "59",
    encoded := [], sent := [], recentLog := [], signals := [], dialogs := [] }

def uiRun (evs : List UiEvent) : UiState := evs.foldl uiStep uiInit

/-- The log button state always reflects the current validation of the two
gating fields. -/
def enabledInv (s : UiState) : Prop :=
  s.logEnabled = computeLogEnabled s.callText s.freqText

theorem uiStep_inv (s : UiState) (e : UiEvent) (h : enabledInv s) :
    enabledInv (uiStep s e) := by
  unfold enabledInv at h ⊢
  cases e with
  | setCall t => simp only [uiStep]
  | setFreq t => simp only [uiStep]
  | setBand t => simpa only [uiStep] using h
  | setMode t => simpa only [uiStep] using h
  | setRstSent t => simpa only [uiStep] using h
  | setRstRecv t => simpa only [uiStep] using h
  | clearAll => simp only [uiStep]
  | logClick dtUtc dtLoc net =>
    simp only [uiStep]
    split
    · cases net with
      | ok =>
        simp only [send_to_log4om]
        split
        · simp only []
        · exact h
      | timeout => exact h
      | sockError m => exact h
    · exact h

theorem uiRun_inv (evs : List UiEvent) : enabledInv (uiRun evs) := by
  suffices hgen : ∀ s, enabledInv s → enabledInv (evs.foldl uiStep s) from hgen uiInit rfl
  induction evs with
  | nil => exact fun s h => h
  | cons e rest ih => exact fun s h => ih _ (uiStep_inv s e h)

theorem uiStep_log_disabled (s : UiState) (dtUtc dtLoc : PyDateTime)
    (net : SendOutcome) (he : s.logEnabled = false) :
    uiStep s (.logClick dtUtc dtLoc net) = s := by
  simp only [uiStep, he]
  rfl

theorem uiStep_log_encoded (s : UiState) (dtUtc dtLoc : PyDateTime)
    (net : SendOutcome) (he : s.logEnabled = true) :
    (uiStep s (.logClick dtUtc dtLoc net)).encoded =
      s.encoded ++ [create_adif_entry (gather_qso_data s dtUtc)] := by
  simp only [uiStep, he, if_true]
  cases net with
  | ok =>
    simp only [send_to_log4om]
    split <;> rfl
  | timeout => rfl
  | sockError m => rfl

/-- C2: whenever the log action encodes and transmits a QSO entry — the
encoded history changes — the entry gathered from the reachable interface
state has a call string passing validate_callsign and a frequency string
passing validate_frequency, and the new record is exactly the encoding of
that entry: the log action is gated by both validations through the enabled
state of the log button. -/
theorem c2_log_validated (evs : List UiEvent) (dtUtc dtLoc : PyDateTime)
    (net : SendOutcome)
    (hch : (uiStep (uiRun evs) (.logClick dtUtc dtLoc net)).encoded ≠ (uiRun evs).encoded) :
    validate_callsign (gather_qso_data (uiRun evs) dtUtc).call = true ∧
    validate_frequency (gather_qso_data (uiRun evs) dtUtc).freq = true ∧
    (uiStep (uiRun evs) (.logClick dtUtc dtLoc net)).encoded =
      (uiRun evs).encoded ++ [create_adif_entry (gather_qso_data (uiRun evs) dtUtc)] := by
  have hinv : enabledInv (uiRun evs) := uiRun_inv evs
  by_cases he : (uiRun evs).logEnabled = true
  · have hc : computeLogEnabled (uiRun evs).callText (uiRun evs).freqText = true := by
      rw [← hinv]
      exact he
    unfold computeLogEnabled at hc
    simp only [Bool.and_eq_true] at hc
    obtain ⟨⟨_, hcall⟩, _, hfreq⟩ := hc
    refine ⟨validate_callsign_gather _ hcall, hfreq, ?_⟩
    exact uiStep_log_encoded _ dtUtc dtLoc net he
  · exfalso
    apply hch
    rw [uiStep_log_disabled _ dtUtc dtLoc net (by simpa using he)]

theorem c2_log_validated_witness :
    validate_callsign
        (gather_qso_data (uiRun [.setCall "W1AW", .setFreq "14.074"])
          ⟨2026, 10, 12, 3, 4, 5⟩).call = true ∧
    validate_frequency
        (gather_qso_data (uiRun [.setCall "W1AW", .setFreq "14.074"])
          ⟨2026, 10, 12, 3, 4, 5⟩).freq = true ∧
    (uiStep (uiRun [.setCall "W1AW", .setFreq "14.074"])
        (.logClick ⟨2026, 10, 12, 3, 4, 5⟩ ⟨2026, 10, 12, 3, 4, 5⟩ .ok)).encoded =
      (uiRun [.setCall "W1AW", .setFreq "14.074"]).encoded ++
        [create_adif_entry
          (gather_qso_data (uiRun [.setCall "W1AW", .setFreq "14.074"])
            ⟨2026, 10, 12, 3, 4, 5⟩)] :=
  c2_log_validated [.setCall "W1AW", .setFreq "14.074"]
    ⟨2026, 10, 12, 3, 4, 5⟩ ⟨2026, 10, 12, 3, 4, 5⟩ .ok (by decide)

theorem uiStep_log_fail (s : UiState) (dtUtc dtLoc : PyDateTime) (m : String)
    (net : SendOutcome) (he : s.logEnabled = true)
    (hsend : send_to_log4om (create_adif_entry (gather_qso_data s dtUtc)) net = .error m) :
    uiStep s (.logClick dtUtc dtLoc net) =
      { s with
        encoded := s.encoded ++ [create_adif_entry (gather_qso_data s dtUtc)]
        dialogs := s.dialogs ++ ["Failed to log QSO: " ++ m] } := by
  simp only [uiStep, he, if_true]
  cases net with
  | ok => exact absurd hsend (by simp [send_to_log4om])
  | timeout =>
    have hm : "Connection timeout - check IP and port settings" = m := by
      simpa [send_to_log4om] using hsend
    rw [← hm]
    rfl
  | sockError e =>
    have hm : "Network error: " ++ e = m := by
      simpa [send_to_log4om] using hsend
    rw [← hm]
    rfl

/-- C8: when the datagram send fails — the timeout of the fixed
udpTimeoutSeconds bound, or any socket-level error — send_to_log4om raises
the corresponding wrapped error synchronously, log_qso catches it and shows
an error dialog, and the QSO is not recorded as logged: no success handling
runs, the Recent QSOs log, the sent history and the qso_logged signal
history are all unchanged. -/
theorem c8_send_failure (evs : List UiEvent) (dtUtc dtLoc : PyDateTime)
    (net : SendOutcome) (hnet : net ≠ .ok) :
    (uiStep (uiRun evs) (.logClick dtUtc dtLoc net)).recentLog = (uiRun evs).recentLog ∧
    (uiStep (uiRun evs) (.logClick dtUtc dtLoc net)).signals = (uiRun evs).signals ∧
    (uiStep (uiRun evs) (.logClick dtUtc dtLoc net)).sent = (uiRun evs).sent ∧
    ∃ msg, send_to_log4om (create_adif_entry (gather_qso_data (uiRun evs) dtUtc)) net =
        .error msg ∧
      ((uiRun evs).logEnabled = true →
        (uiStep (uiRun evs) (.logClick dtUtc dtLoc net)).dialogs =
          (uiRun evs).dialogs ++ ["Failed to log QSO: " ++ msg]) := by
  have hmsg : ∃ msg, send_to_log4om (create_adif_entry (gather_qso_data (uiRun evs) dtUtc))
      net = .error msg := by
    cases net with
    | ok => exact absurd rfl hnet
    | timeout => exact ⟨_, rfl⟩
    | sockError m => exact ⟨_, rfl⟩
  obtain ⟨msg, hsend⟩ := hmsg
  by_cases he : (uiRun evs).logEnabled = true
  · rw [uiStep_log_fail _ dtUtc dtLoc msg net he hsend]
    exact ⟨rfl, rfl, rfl, msg, hsend, fun _ => rfl⟩
  · rw [uiStep_log_disabled _ dtUtc dtLoc net (by simpa using he)]
    exact ⟨rfl, rfl, rfl, msg, hsend, fun hh => absurd hh he⟩

theorem c8_send_failure_witness :
    (uiStep (uiRun [.setCall "W1AW", .setFreq "14.074"])
        (.logClick ⟨2026, 10, 12, 3, 4, 5⟩ ⟨2026, 10, 12, 3, 4, 5⟩ .timeout)).recentLog =
      (uiRun [.setCall "W1AW", .setFreq "14.074"]).recentLog ∧
    (uiStep (uiRun [.setCall "W1AW", .setFreq "14.074"])
        (.logClick ⟨2026, 10, 12, 3, 4, 5⟩ ⟨2026, 10, 12, 3, 4, 5⟩ .timeout)).signals =
      (uiRun [.setCall "W1AW", .setFreq "14.074"]).signals ∧
    (uiStep (uiRun [.setCall "W1AW", .setFreq "14.074"])
        (.logClick ⟨2026, 10, 12, 3, 4, 5⟩ ⟨2026, 10, 12, 3, 4, 5⟩ .timeout)).sent =
      (uiRun [.setCall "W1AW", .setFreq "14.074"]).sent ∧
    ∃ msg, send_to_log4om
        (create_adif_entry
          (gather_qso_data (uiRun [.setCall "W1AW", .setFreq "14.074"])
            ⟨2026, 10, 12, 3, 4, 5⟩)) .timeout = .error msg ∧
      ((uiRun [.setCall "W1AW", .setFreq "14.074"]).logEnabled = true →
        (uiStep (uiRun [.setCall "W1AW", .setFreq "14.074"])
            (.logClick ⟨2026, 10, 12, 3, 4, 5⟩ ⟨2026, 10, 12, 3, 4, 5⟩ .timeout)).dialogs =
          (uiRun [.setCall "W1AW", .setFreq "14.074"]).dialogs ++
            ["Failed to log QSO: " ++ msg]) :=
  c8_send_failure [.setCall "W1AW", .setFreq "14.074"]
    ⟨2026, 10, 12, 3, 4, 5⟩ ⟨2026, 10, 12, 3, 4, 5⟩ .timeout (by decide)

/-! ## Claim C10: the lookup gate of perform_qrz_lookup -/

/-- The slice of interface state read by the lookup path. -/
structure LookupUiState where
  callFieldText : String
  qrzUsername : String
  qrzPassword : String
  autoLookup : Bool
deriving DecidableEq

/-- A started QRZLookupThread; its constructor stores
callsign.upper().strip(). -/
structure LookupThread where
  callsign : String
  username : String
  password : String
deriving DecidableEq

/-- QSOLogger.perform_qrz_lookup, the slot of the debounce timer: returns
the thread it starts, or none when it returns without starting one — when
the stripped callsign text is empty or fails validate_callsign, or when a
credential is missing. -/
def perform_qrz_lookup (s : LookupUiState) : Option LookupThread :=
  let callsign := pyStrip s.callFieldText
  if callsign = "" then none
  else if ¬ validate_callsign callsign then none
  else
    let username := pyStrip s.qrzUsername
    let password := pyStrip s.qrzPassword
    if username = "" then none
    else if password = "" then none
    else some ⟨pyStrip (pyUpper callsign), username, password⟩

/-- The should_lookup condition of QSOLogger.on_callsign_changed that arms
the 1500 ms debounce timer: auto-lookup enabled, nonempty stripped text of
at least 3 characters, and both credentials configured — with no
validate_callsign requirement. -/
def armsLookupTimer (s : LookupUiState) : Bool :=
  s.autoLookup && pyStrip s.callFieldText ≠ "" &&
  (pyStrip s.callFieldText).length ≥ 3 &&
  pyStrip s.qrzUsername ≠ "" && pyStrip s.qrzPassword ≠ ""

/-- C10: a lookup thread is only ever started by the debounce slot for
current callsign text that is nonempty after stripping and passes
validate_callsign — and the started thread queries exactly the normalized
form of that text; moreover this gate is strictly stricter than the
at-least-3-characters condition that arms the timer, witnessed by a state
that arms the timer yet produces no lookup. -/
theorem c10_lookup_gate :
    (∀ s th, perform_qrz_lookup s = some th →
      pyStrip s.callFieldText ≠ "" ∧
      validate_callsign (pyStrip s.callFieldText) = true ∧
      th.callsign = pyStrip (pyUpper (pyStrip s.callFieldText))) ∧
    (∃ s, armsLookupTimer s = true ∧ perform_qrz_lookup s = none) := by
  constructor
  · intro s th h
    unfold perform_qrz_lookup at h
    simp only [] at h
    split_ifs at h with h1 h2 h3 h4
    refine ⟨h1, h2, ?_⟩
    injection h with h5
    rw [← h5]
  · refine ⟨⟨"AAAA", "user", "pass", true⟩, ?_, ?_⟩ <;> decide

theorem c10_lookup_gate_witness :
    pyStrip " w1aw " ≠ "" ∧
    validate_callsign (pyStrip " w1aw ") = true ∧
    (LookupThread.mk "W1AW" "user" "pass").callsign =
      pyStrip (pyUpper (pyStrip " w1aw ")) :=
  c10_lookup_gate.1 ⟨" w1aw ", "user", "pass", true⟩
    ⟨"W1AW", "user", "pass"⟩ (by decide)
